import Mathlib

/-!
# A shallow embedding of the `lox-ast-interpreter` core

This file embeds the data model and the operations of the tree-walking Lox
interpreter (parser `src/parser.rs`, environment `src/environment.rs`,
interpreter `src/interpreter.rs`, values `src/object.rs`, functions
`src/function.rs`, errors `src/error.rs`, tokens `src/token.rs`) and proves
the specification claims about them.

Modelling choices, stated once:

* Rust `f64` numbers are modelled by exact fractions of integers (`Num`,
  a numerator/denominator pair with positive denominator).  Every number a
  claim touches is a small integer, where `f64` arithmetic and comparison are
  exact, so the fraction model agrees with the source; `NaN`/overflow corner
  cases are outside every claim.
* `Rc<RefCell<Environment>>` aliasing is modelled by a heap: a list of
  scopes addressed by index, with the interpreter state carrying the address
  of the current environment.  Fresh environments are appended at the end of
  the list, which mirrors allocation; `enclosing` links are addresses.
* `Rc` pointer identity (used by the `locals` table, keyed on `Rc<Expr>`,
  and by `Callable`'s `PartialEq`) is modelled by explicit numeric
  identities: variable/assignment nodes carry a node id, function values
  carry a creation id (`fid`) drawn from a counter in the state.
* Panics (`unwrap` on a missing map entry or enclosing link, out-of-range
  indexing) are modelled by `Option`/a `systemError` result so that theorems
  can state that the panicking branch is unreachable.
* Recursion that is not structural in Rust (tree-walking evaluation, the
  recursive-descent parser) is given explicit fuel; fuel exhaustion is a
  `systemError` that never occurs in any theorem below.
* `println!` output is modelled by collecting the `Display` rendering of the
  printed value (`value.to_string()` in `visit_print_stmt`); the extra
  `{:?}` quoting applied by the driver at the terminal is not modelled.
* The native `clock` function reads the wall clock; its return value is
  modelled as the number `0`.  No claim calls it.
-/

namespace Lox

/-- Exact fraction model of Rust `f64` (see header).  The denominator is
kept positive by construction; fractions are not reduced, so value equality
and order are the cross-multiplied comparisons below. -/
structure Num where
  n : Int
  d : Int
  deriving Repr, DecidableEq

/-- Embed an integer literal. -/
def Num.ofInt (i : Int) : Num := ⟨i, 1⟩

instance : OfNat Num k := ⟨Num.ofInt k⟩

/-- Value equality of fractions (`f64` `==` on the represented values). -/
def Num.veq (a b : Num) : Bool := a.n * b.d == b.n * a.d

/-- Value order of fractions (`f64` `<` on the represented values). -/
def Num.vlt (a b : Num) : Bool := a.n * b.d < b.n * a.d

def Num.add (a b : Num) : Num := ⟨a.n * b.d + b.n * a.d, a.d * b.d⟩

def Num.sub (a b : Num) : Num := ⟨a.n * b.d - b.n * a.d, a.d * b.d⟩

def Num.mul (a b : Num) : Num := ⟨a.n * b.n, a.d * b.d⟩

/-- Division; only reached when the divisor is nonzero (`visit_binary_expr`
guards `n2 == 0.0`).  Sign-adjusted so the denominator stays positive. -/
def Num.div (a b : Num) : Num :=
  if b.n < 0 then ⟨-(a.n * b.d), a.d * (-b.n)⟩ else ⟨a.n * b.d, a.d * b.n⟩

def Num.neg (a : Num) : Num := ⟨-a.n, a.d⟩

/-- Zero test used by the division guard (`n2 == 0.0`). -/
def Num.isZero (a : Num) : Bool := a.n == 0

/-- Rust `{}` formatting of an `f64`: integers print without a fractional
part.  Non-integral fractions (unused by every claim) print as `n/d`. -/
def Num.display (a : Num) : String :=
  if a.d == 1 then toString a.n
  else toString a.n ++ "/" ++ toString a.d

/-- `TokenType` (module `token_type`, reconstructed from its uses in
`parser.rs`, `interpreter.rs` and `scanner.rs`). -/
inductive TokenType where
  | leftParen | rightParen | leftBrace | rightBrace
  | comma | dot | minus | plus | semicolon | slash | star
  | bang | bangEqual | equal | equalEqual
  | greater | greaterEqual | less | lessEqual
  | identifier | string | number
  | and | classT | elseT | falseT | funT | forT | ifT | nil | or
  | print | returnT | superT | thisT | trueT | var | whileT | breakT
  | eof
  deriving Repr, DecidableEq

/-- Literal payload of a token (`token.rs`, its local `Object` enum) and of
a `LiteralExpr` (`object.rs` values the parser inserts). -/
inductive LitVal where
  | str (s : String)
  | num (v : Num)
  | nil
  | bool (b : Bool)
  deriving Repr, DecidableEq

/-- `Token` (`token.rs`). -/
structure Token where
  ttype : TokenType
  lexeme : String
  literal : Option LitVal
  line : Nat
  deriving Repr, DecidableEq

/-- Debug name of a token type (Rust `{:?}`), used by `Token`'s `Display`. -/
def TokenType.debugName : TokenType → String
  | .leftParen => "LeftParen" | .rightParen => "RightParen"
  | .leftBrace => "LeftBrace" | .rightBrace => "RightBrace"
  | .comma => "Comma" | .dot => "Dot" | .minus => "Minus" | .plus => "Plus"
  | .semicolon => "Semicolon" | .slash => "Slash" | .star => "Star"
  | .bang => "Bang" | .bangEqual => "BangEqual"
  | .equal => "Equal" | .equalEqual => "EqualEqual"
  | .greater => "Greater" | .greaterEqual => "GreaterEqual"
  | .less => "Less" | .lessEqual => "LessEqual"
  | .identifier => "Identifier" | .string => "String" | .number => "Number"
  | .and => "And" | .classT => "Class" | .elseT => "Else"
  | .falseT => "False" | .funT => "Fun" | .forT => "For" | .ifT => "If"
  | .nil => "Nil" | .or => "Or" | .print => "Print" | .returnT => "Return"
  | .superT => "Super" | .thisT => "This" | .trueT => "True"
  | .var => "Var" | .whileT => "While" | .breakT => "Break" | .eof => "Eof"

/-- `Display` of a literal (`token.rs`). -/
def LitVal.display : LitVal → String
  | .str s => s
  | .num v => v.display
  | .nil => "nil"
  | .bool b => if b then "true" else "false"

/-- `Display for Token` (`token.rs`): `"{:?} {} {}"` over type, lexeme and
literal (`nil` when absent). -/
def Token.display (t : Token) : String :=
  t.ttype.debugName ++ " " ++ t.lexeme ++ " " ++
    (match t.literal with
     | some l => l.display
     | none => "nil")

/-- Unary operators (`TokenType`s reaching `visit_unary_expr`). -/
inductive UnOp where
  | minus | bang
  deriving Repr, DecidableEq

/-- Binary operators (`TokenType`s reaching `visit_binary_expr`). -/
inductive BinOp where
  | minus | plus | slash | star
  | greater | less | greaterEqual | lessEqual | bangEqual | equalEqual
  deriving Repr, DecidableEq

/-- Logical operators (`visit_logical_expr` branches on `Or`). -/
inductive LogOp where
  | or | and
  deriving Repr, DecidableEq

/-- Expressions (`expr.rs`).  `variable` and `assign` nodes carry a node id
modelling the `Rc` pointer identity that keys the `locals` table; `unary`
and `binary` keep the operator token's line for `GenericError`s, and
`variable`/`assign`/`call` keep the tokens their runtime errors carry. -/
inductive Expr where
  | literal (value : Option LitVal)
  | grouping (expression : Expr)
  | unary (operator : UnOp) (line : Nat) (right : Expr)
  | binary (left : Expr) (operator : BinOp) (line : Nat) (right : Expr)
  | logical (left : Expr) (operator : LogOp) (right : Expr)
  | varE (id : Nat) (name : Token)
  | assign (id : Nat) (name : Token) (value : Expr)
  | call (callee : Expr) (paren : Token) (arguments : List Expr)
  deriving Repr

/-- Statements (`stmt.rs`). -/
inductive Stmt where
  | block (statements : List Stmt)
  | ifStmt (condition : Expr) (thenBranch : Stmt) (elseBranch : Option Stmt)
  | expression (expr : Expr)
  | function (name : Token) (params : List Token) (body : List Stmt)
  | breakStmt (token : Token)
  | print (expr : Expr)
  | returnStmt (token : Token) (value : Option Expr)
  | var (name : Token) (initializer : Option Expr)
  | whileStmt (condition : Expr) (body : Stmt)
  deriving Repr

/-- Function values (`function.rs` `LoxFunction` and `callable.rs`
`NativeClock`).  `fid` models `Rc` identity (`Callable`'s `PartialEq` is
pointer equality); `closure` is the heap address of the captured
environment. -/
inductive FuncVal where
  | native (fid : Nat)
  | user (fid : Nat) (name : String) (params : List Token)
      (body : List Stmt) (closure : Nat)
  deriving Repr

def FuncVal.fid : FuncVal → Nat
  | .native i => i
  | .user i _ _ _ _ => i

def FuncVal.arity : FuncVal → Nat
  | .native _ => 0
  | .user _ _ ps _ _ => ps.length

/-- Runtime values (`object.rs` `Object`). -/
inductive Obj where
  | str (s : String)
  | num (v : Num)
  | nil
  | bool (b : Bool)
  | func (f : FuncVal)
  deriving Repr

/-- `Object::get_type` (`object.rs`). -/
def Obj.getType : Obj → String
  | .str _ => "string"
  | .num _ => "number"
  | .nil => "nil"
  | .bool _ => "bool"
  | .func _ => "function"

/-- `Display for Object` (`object.rs`), i.e. `to_string()`. -/
def Obj.display : Obj → String
  | .str s => s
  | .num v => v.display
  | .nil => "nil"
  | .bool b => if b then "true" else "false"
  | .func _ => "function"

/-- Rust `Ordering`. -/
inductive Ord3 where
  | lt | eq | gt
  deriving Repr, DecidableEq

/-- `PartialOrd for Object` (`object.rs` `partial_cmp`): same-tag
comparisons, `Nil` below everything, `None` otherwise (functions). -/
def Obj.cmp : Obj → Obj → Option Ord3
  | .num a, .num b =>
      some (if a.vlt b then .lt else if a.veq b then .eq else .gt)
  | .str a, .str b =>
      some (if a < b then .lt else if a = b then .eq else .gt)
  | .bool a, .bool b =>
      some (if a < b then .lt else if a = b then .eq else .gt)
  | .nil, .nil => some .eq
  | .nil, _ => some .lt
  | _, .nil => some .gt
  | _, _ => none

/-- `PartialEq for Object` (derived in `object.rs`; `Callable` compares by
`Rc` pointer, modelled by `fid`). -/
def Obj.peq : Obj → Obj → Bool
  | .str a, .str b => a == b
  | .num a, .num b => a.veq b
  | .nil, .nil => true
  | .bool a, .bool b => a == b
  | .func f, .func g => f.fid == g.fid
  | _, _ => false

/-- Rust `left > right` through `PartialOrd`. -/
def Obj.gtb (a b : Obj) : Bool := a.cmp b == some .gt

/-- Rust `left < right` through `PartialOrd`. -/
def Obj.ltb (a b : Obj) : Bool := a.cmp b == some .lt

/-- Rust `left >= right` through `PartialOrd`. -/
def Obj.geb (a b : Obj) : Bool := a.cmp b == some .gt || a.cmp b == some .eq

/-- Rust `left <= right` through `PartialOrd`. -/
def Obj.leb (a b : Obj) : Bool := a.cmp b == some .lt || a.cmp b == some .eq

/-- Error/signal channel (`error.rs` `LoxResult`).  `report` only writes to
stderr, so it is not modelled. -/
inductive LoxResult where
  | parseError (token : Token) (message : String)
  | runtimeError (token : Token) (message : String)
  | genericError (line : Nat) (message : String)
  | systemError (message : String)
  | breakSignal
  | returnValue (value : Obj)
  deriving Repr

/-- Fuel exhaustion / unreachable-panic marker (a modelling artifact; no
theorem below ever produces it). -/
def panicked : LoxResult := .systemError "panic"

/-- The name-to-value map of one scope (`HashMap<String, Object>`),
modelled as an association list whose `insert` overwrites in place. -/
abbrev Values := List (String × Obj)

/-- `HashMap::get`. -/
def lookupVal : Values → String → Option Obj
  | [], _ => none
  | (k, v) :: rest, n => if k = n then some v else lookupVal rest n

/-- `HashMap::insert`: replaces the existing binding or appends. -/
def insertVal : Values → String → Obj → Values
  | [], n, v => [(n, v)]
  | (k, w) :: rest, n, v =>
      if k = n then (n, v) :: rest else (k, w) :: insertVal rest n v

/-- One environment scope (`environment.rs` `Environment`): bindings plus
an optional enclosing link, here a heap address. -/
structure EnvScope where
  values : Values
  enclosing : Option Nat
  deriving Repr

/-- The heap of environments; an address is an index, allocation appends. -/
abbrev Heap := List EnvScope

/-- Heap indexing (`Rc` dereference through an address). -/
def getScope : Heap → Nat → Option EnvScope
  | [], _ => none
  | e :: _, 0 => some e
  | _ :: h, a + 1 => getScope h a

/-- Heap update at an address. -/
def setScope : Heap → Nat → EnvScope → Heap
  | [], _, _ => []
  | _ :: h, 0, e => e :: h
  | x :: h, a + 1, e => x :: setScope h a e

/-- `Environment::define`: unconditional insert/overwrite in the scope at
address `a`.  (An invalid address cannot arise from an `Rc`; the fallback
returns the heap unchanged.) -/
def envDefine (h : Heap) (a : Nat) (n : String) (v : Obj) : Heap :=
  match getScope h a with
  | some e => setScope h a { e with values := insertVal e.values n v }
  | none => h

/-- `Environment::get_at`: walk exactly `d` enclosing links, then read the
binding directly.  `none` is the panic of the two `unwrap`s (missing
binding at distance 0, missing enclosing link). -/
def getAt (h : Heap) (a : Nat) (d : Nat) (n : String) : Option Obj :=
  match d, getScope h a with
  | 0, some e => lookupVal e.values n
  | Nat.succ d, some e =>
      match e.enclosing with
      | some b => getAt h b d n
      | none => none
  | _, none => none

/-- `Environment::assign_at`: walk exactly `d` enclosing links, then insert
the binding directly.  `none` is the panic of the `unwrap` on a missing
enclosing link. -/
def assignAt (h : Heap) (a : Nat) (d : Nat) (n : String) (v : Obj) :
    Option Heap :=
  match d, getScope h a with
  | 0, some e =>
      some (setScope h a { e with values := insertVal e.values n v })
  | Nat.succ d, some e =>
      match e.enclosing with
      | some b => assignAt h b d n v
      | none => none
  | _, none => none

/-- The "undefined variable" runtime error of `Environment::get`/`assign`;
note the source formats the whole token (`Display for Token`) into the
message. -/
def undefinedVar (tok : Token) : LoxResult :=
  .runtimeError tok ("Undefined variable \x27" ++ tok.display ++ "\x27.")

/-- `Environment::get`: look up the lexeme here, else recurse outward, else
the "undefined variable" error.  `fuel` bounds the walk (modelling
artifact; every chain built by the interpreter is acyclic). -/
def envGet (h : Heap) : Nat → Nat → Token → Except LoxResult Obj
  | 0, _, _ => .error panicked
  | fl + 1, a, tok =>
      match getScope h a with
      | none => .error panicked
      | some e =>
          match lookupVal e.values tok.lexeme with
          | some v => .ok v
          | none =>
              match e.enclosing with
              | some b => envGet h fl b tok
              | none => .error (undefinedVar tok)

/-- `Environment::assign`: overwrite the nearest existing binding on the
outward walk, else the "undefined variable" error. -/
def envAssign (h : Heap) : Nat → Nat → Token → Obj → Except LoxResult Heap
  | 0, _, _, _ => .error panicked
  | fl + 1, a, tok, v =>
      match getScope h a with
      | none => .error panicked
      | some e =>
          match lookupVal e.values tok.lexeme with
          | some _ =>
              .ok (setScope h a { e with values := insertVal e.values tok.lexeme v })
          | none =>
              match e.enclosing with
              | some b => envAssign h fl b tok v
              | none => .error (undefinedVar tok)

/-- The resolver's output table (`Interpreter::locals`,
`HashMap<Rc<Expr>, usize>` keyed by pointer identity, here by node id). -/
abbrev Locals := List (Nat × Nat)

def localsGet : Locals → Nat → Option Nat
  | [], _ => none
  | (k, d) :: rest, id => if k == id then some d else localsGet rest id

/-- The interpreter's mutable state: the environment heap, the
current-environment cursor (`Interpreter::environment`), the loop nesting
counter (`nesting_level`), the function-identity counter (models fresh `Rc`
allocation), and the `println!` output collected so far.  The globals
environment (`Interpreter::globals`) is always at address 0. -/
structure State where
  heap : Heap
  cursor : Nat
  nesting : Nat
  nextFid : Nat
  output : List String
  deriving Repr

/-- `Interpreter::new`: a globals scope holding the native `clock`. -/
def initState : State :=
  { heap := [⟨[("clock", Obj.func (.native 0))], none⟩],
    cursor := 0, nesting := 0, nextFid := 1, output := [] }

/-- `Interpreter::is_truthy`. -/
def isTruthy : Obj → Bool
  | .nil => false
  | .bool false => false
  | _ => true

def litToObj : LitVal → Obj
  | .str s => .str s
  | .num v => .num v
  | .nil => .nil
  | .bool b => .bool b

/-- The type-check-then-compare evaluation of the six relational/equality
operators and the four arithmetic operators of `visit_binary_expr`, as a
pure function of the two already-evaluated operands. -/
def binOpEval (op : BinOp) (line : Nat) (l r : Obj) : Except LoxResult Obj :=
  match op with
  | .minus =>
      match l, r with
      | .num a, .num b => .ok (.num (a.sub b))
      | _, _ => .error (.genericError line
          "invalid expression: operands must be two numbers")
  | .plus =>
      match l, r with
      | .num a, .num b => .ok (.num (a.add b))
      | .str s, .num b => .ok (.str (s ++ b.display))
      | .num a, .str s => .ok (.str (a.display ++ s))
      | .str s1, .str s2 => .ok (.str (s1 ++ s2))
      | _, _ => .error (.genericError line
          "invalid expression:operands must be two numbers or two strings")
  | .slash =>
      match l, r with
      | .num a, .num b =>
          if b.isZero then .error (.genericError line "division by zero")
          else .ok (.num (a.div b))
      | _, _ => .error (.genericError line
          "invalid expression:operands must be numbers")
  | .star =>
      match l, r with
      | .num a, .num b => .ok (.num (a.mul b))
      | _, _ => .error (.genericError line
          "invalid expression:operands must be numbers")
  | .greater =>
      if l.getType = r.getType then .ok (.bool (l.gtb r))
      else .error (.genericError line
          "invalid expression:operands are different types")
  | .less =>
      if l.getType = r.getType then .ok (.bool (l.ltb r))
      else .error (.genericError line
          "invalid expression:operands are different types")
  | .greaterEqual =>
      if l.getType = r.getType then .ok (.bool (l.geb r))
      else .error (.genericError line
          "invalid expression:operands are different types")
  | .lessEqual =>
      if l.getType = r.getType then .ok (.bool (l.leb r))
      else .error (.genericError line
          "invalid expression:operands are different types")
  | .bangEqual =>
      if l.getType = r.getType then .ok (.bool (!(l.peq r)))
      else .error (.genericError line
          "invalid expression:operands are different types")
  | .equalEqual =>
      if l.getType = r.getType then .ok (.bool (l.peq r))
      else .error (.genericError line
          "invalid expression:operands are different types")

/-- `LoxFunction::call`'s parameter binding: `define` each `(param, arg)`
pair of the zip into the fresh call scope, in order. -/
def bindParams (ps : List Token) (vs : List Obj) : Values :=
  (ps.zip vs).foldl (fun m pv => insertVal m pv.1.lexeme pv.2) []

/-- A pending piece of work for the mutually recursive evaluator.  The Rust
methods `evaluate`, `visit_call_expr`'s argument loop, `execute`,
`try_for_each` over a statement list, `execute_block`, the `while` loop of
`visit_while_stmt` and `LoxFunction::call` are the seven shapes. -/
inductive Req where
  | expr (e : Expr)
  | args (es : List Expr) (acc : List Obj)
  | stmt (s : Stmt)
  | stmts (l : List Stmt)
  | block (l : List Stmt) (env : EnvScope)
  | wloop (cond : Expr) (body : Stmt)
  | callf (f : FuncVal) (vs : List Obj)

/-- The result shape matching each `Req`. -/
inductive Res where
  | obj (o : Obj)
  | objs (l : List Obj)
  | unit

/-- The tree-walking evaluator (`interpreter.rs` with `function.rs`'s
`LoxFunction::call`), written as one fuel-structural function over `Req` so
that concrete runs reduce definitionally.  Each recursive call spends one
fuel; an `.ok` result of the wrong `Res` shape is unreachable and mapped to
`panicked`. -/
def exec (L : Locals) : Nat → State → Req → State × Except LoxResult Res
  | 0, st, _ => (st, .error (.systemError "fuel"))
  | fl + 1, st, req =>
      match req with
      | .expr e =>
          match e with
          | .literal v =>
              match v with
              | some l => (st, .ok (.obj (litToObj l)))
              | none => (st, .error panicked)
          | .grouping e1 => exec L fl st (.expr e1)
          | .unary op line e1 =>
              match exec L fl st (.expr e1) with
              | (st1, .error r) => (st1, .error r)
              | (st1, .ok (.obj v)) =>
                  match op with
                  | .minus =>
                      match v with
                      | .num n => (st1, .ok (.obj (.num n.neg)))
                      | _ => (st1, .error (.genericError line
                          "Operand must be a number"))
                  | .bang => (st1, .ok (.obj (.bool (!isTruthy v))))
              | (st1, .ok _) => (st1, .error panicked)
          | .binary e1 op line e2 =>
              match exec L fl st (.expr e1) with
              | (st1, .error r) => (st1, .error r)
              | (st1, .ok (.obj lv)) =>
                  match exec L fl st1 (.expr e2) with
                  | (st2, .error r) => (st2, .error r)
                  | (st2, .ok (.obj rv)) =>
                      match binOpEval op line lv rv with
                      | .ok v => (st2, .ok (.obj v))
                      | .error r => (st2, .error r)
                  | (st2, .ok _) => (st2, .error panicked)
              | (st1, .ok _) => (st1, .error panicked)
          | .logical e1 op e2 =>
              match exec L fl st (.expr e1) with
              | (st1, .error r) => (st1, .error r)
              | (st1, .ok (.obj lv)) =>
                  match op with
                  | .or =>
                      if isTruthy lv then (st1, .ok (.obj lv))
                      else exec L fl st1 (.expr e2)
                  | .and =>
                      if !isTruthy lv then (st1, .ok (.obj lv))
                      else exec L fl st1 (.expr e2)
              | (st1, .ok _) => (st1, .error panicked)
          | .varE id name =>
              match localsGet L id with
              | some d =>
                  match getAt st.heap st.cursor d name.lexeme with
                  | some v => (st, .ok (.obj v))
                  | none => (st, .error panicked)
              | none =>
                  match envGet st.heap (st.heap.length + 1) 0 name with
                  | .ok v => (st, .ok (.obj v))
                  | .error r => (st, .error r)
          | .assign id name e1 =>
              match exec L fl st (.expr e1) with
              | (st1, .error r) => (st1, .error r)
              | (st1, .ok (.obj v)) =>
                  match localsGet L id with
                  | some d =>
                      match assignAt st1.heap st1.cursor d name.lexeme v with
                      | some h2 => ({ st1 with heap := h2 }, .ok (.obj v))
                      | none => (st1, .error panicked)
                  | none =>
                      match envAssign st1.heap (st1.heap.length + 1) 0 name v with
                      | .ok h2 => ({ st1 with heap := h2 }, .ok (.obj v))
                      | .error r => (st1, .error r)
              | (st1, .ok _) => (st1, .error panicked)
          | .call callee paren argEs =>
              match exec L fl st (.expr callee) with
              | (st1, .error r) => (st1, .error r)
              | (st1, .ok (.obj cv)) =>
                  match exec L fl st1 (.args argEs []) with
                  | (st2, .error r) => (st2, .error r)
                  | (st2, .ok (.objs vs)) =>
                      match cv with
                      | .func f =>
                          if vs.length = f.arity then
                            exec L fl st2 (.callf f vs)
                          else
                            (st2, .error (.runtimeError paren
                              ("expected " ++ toString f.arity ++
                               " arguments but got " ++ toString vs.length)))
                      | _ => (st2, .error (.runtimeError paren
                          "can only call functions and classes"))
                  | (st2, .ok _) => (st2, .error panicked)
              | (st1, .ok _) => (st1, .error panicked)
      | .args es acc =>
          match es with
          | [] => (st, .ok (.objs acc))
          | e :: rest =>
              match exec L fl st (.expr e) with
              | (st1, .error r) => (st1, .error r)
              | (st1, .ok (.obj v)) => exec L fl st1 (.args rest (acc ++ [v]))
              | (st1, .ok _) => (st1, .error panicked)
      | .stmt s =>
          match s with
          | .block statements =>
              exec L fl st (.block statements ⟨[], some st.cursor⟩)
          | .ifStmt c t e =>
              match exec L fl st (.expr c) with
              | (st1, .error r) => (st1, .error r)
              | (st1, .ok (.obj v)) =>
                  if isTruthy v then exec L fl st1 (.stmt t)
                  else
                    match e with
                    | some s1 => exec L fl st1 (.stmt s1)
                    | none => (st1, .ok .unit)
              | (st1, .ok _) => (st1, .error panicked)
          | .expression e =>
              match exec L fl st (.expr e) with
              | (st1, .error r) => (st1, .error r)
              | (st1, .ok _) => (st1, .ok .unit)
          | .function name ps body =>
              let f : FuncVal := .user st.nextFid name.lexeme ps body st.cursor
              ({ st with
                  heap := envDefine st.heap st.cursor name.lexeme (.func f),
                  nextFid := st.nextFid + 1 }, .ok .unit)
          | .breakStmt tok =>
              if st.nesting = 0 then
                (st, .error (.runtimeError tok "Can\x27t break outside of loop"))
              else
                (st, .error .breakSignal)
          | .print e =>
              match exec L fl st (.expr e) with
              | (st1, .error r) => (st1, .error r)
              | (st1, .ok (.obj v)) =>
                  ({ st1 with output := st1.output ++ [v.display] }, .ok .unit)
              | (st1, .ok _) => (st1, .error panicked)
          | .returnStmt _tok value =>
              match value with
              | some e =>
                  match exec L fl st (.expr e) with
                  | (st1, .error r) => (st1, .error r)
                  | (st1, .ok (.obj v)) => (st1, .error (.returnValue v))
                  | (st1, .ok _) => (st1, .error panicked)
              | none => (st, .error (.returnValue .nil))
          | .var name initializer =>
              match initializer with
              | some e =>
                  match exec L fl st (.expr e) with
                  | (st1, .error r) => (st1, .error r)
                  | (st1, .ok (.obj v)) =>
                      ({ st1 with
                          heap := envDefine st1.heap st1.cursor name.lexeme v },
                       .ok .unit)
                  | (st1, .ok _) => (st1, .error panicked)
              | none =>
                  ({ st with
                      heap := envDefine st.heap st.cursor name.lexeme .nil },
                   .ok .unit)
          | .whileStmt c b =>
              exec L fl { st with nesting := st.nesting + 1 } (.wloop c b)
      | .stmts l =>
          match l with
          | [] => (st, .ok .unit)
          | s :: rest =>
              match exec L fl st (.stmt s) with
              | (st1, .error r) => (st1, .error r)
              | (st1, .ok _) => exec L fl st1 (.stmts rest)
      | .block l env =>
          let previous := st.cursor
          let addr := st.heap.length
          match exec L fl { st with heap := st.heap ++ [env], cursor := addr }
              (.stmts l) with
          | (st2, r) => ({ st2 with cursor := previous }, r)
      | .wloop c b =>
          match exec L fl st (.expr c) with
          | (st1, .error r) => (st1, .error r)
          | (st1, .ok (.obj v)) =>
              if isTruthy v then
                match exec L fl st1 (.stmt b) with
                | (st2, .error r) => (st2, .error r)
                | (st2, .ok _) => exec L fl st2 (.wloop c b)
              else
                ({ st1 with nesting := st1.nesting - 1 }, .ok .unit)
          | (st1, .ok _) => (st1, .error panicked)
      | .callf f vs =>
          match f with
          | .native _ => (st, .ok (.obj (.num 0)))
          | .user _ _ ps body closure =>
              match exec L fl st (.block body ⟨bindParams ps vs, some closure⟩) with
              | (st1, .error (.returnValue v)) => (st1, .ok (.obj v))
              | (st1, .error r) => (st1, .error r)
              | (st1, .ok _) => (st1, .ok (.obj .nil))

/-- `Interpreter::interpret`: execute top-level statements in order, stop
at the first error, report whether one occurred. -/
def interpret (L : Locals) (fuel : Nat) : State → List Stmt → State × Bool
  | st, [] => (st, false)
  | st, s :: rest =>
      match exec L fuel st (.stmt s) with
      | (st1, .ok _) => interpret L fuel st1 rest
      | (st1, .error _) => (st1, true)

/-- `Interpreter::evaluate` on one expression. -/
def evalExpr (L : Locals) (fuel : Nat) (st : State) (e : Expr) :
    State × Except LoxResult Obj :=
  match exec L fuel st (.expr e) with
  | (st1, .ok (.obj v)) => (st1, .ok v)
  | (st1, .ok _) => (st1, .error panicked)
  | (st1, .error r) => (st1, .error r)

/-- `Interpreter::execute` on one statement. -/
def execStmt (L : Locals) (fuel : Nat) (st : State) (s : Stmt) :
    State × Except LoxResult Unit :=
  match exec L fuel st (.stmt s) with
  | (st1, .ok _) => (st1, .ok ())
  | (st1, .error r) => (st1, .error r)

/-- `Interpreter::execute_block` on a statement list and a freshly built
environment. -/
def executeBlock (L : Locals) (fuel : Nat) (st : State) (l : List Stmt)
    (env : EnvScope) : State × Except LoxResult Unit :=
  match exec L fuel st (.block l env) with
  | (st1, .ok _) => (st1, .ok ())
  | (st1, .error r) => (st1, .error r)

/-- `LoxFunction::call` (via `callable.rs` dispatch). -/
def callFunction (L : Locals) (fuel : Nat) (st : State) (f : FuncVal)
    (vs : List Obj) : State × Except LoxResult Obj :=
  match exec L fuel st (.callf f vs) with
  | (st1, .ok (.obj v)) => (st1, .ok v)
  | (st1, .ok _) => (st1, .error panicked)
  | (st1, .error r) => (st1, .error r)

/-! ## The recursive-descent parser (`parser.rs`) -/

/-- Parser state (`Parser` struct): the token list, the index `current`,
the `had_error` flag, and a counter handing out node ids for the
`Variable`/`Assign` nodes the parser allocates (modelling `Rc` identity). -/
structure PState where
  tokens : List Token
  current : Nat
  hadError : Bool
  nextId : Nat
  deriving Repr

/-- Reading past the end of the token list is a Rust index panic,
unreachable on an `Eof`-terminated input; it is modelled by this token. -/
def eofTok : Token := ⟨.eof, "", none, 0⟩

/-- `Parser::peek`. -/
def peekT (p : PState) : Token := p.tokens.getD p.current eofTok

/-- `Parser::previous`. -/
def previousT (p : PState) : Token := p.tokens.getD (p.current - 1) eofTok

/-- `Parser::is_at_end`. -/
def isAtEnd (p : PState) : Bool := (peekT p).ttype == .eof

/-- `Parser::check`. -/
def checkT (p : PState) (t : TokenType) : Bool :=
  if isAtEnd p then false else (peekT p).ttype == t

/-- `Parser::advance`: step unless at end, return the consumed token. -/
def advanceT (p : PState) : PState × Token :=
  let p1 := if isAtEnd p then p else { p with current := p.current + 1 }
  (p1, previousT p1)

/-- `Parser::is_match`: first matching type is consumed. -/
def isMatch : PState → List TokenType → PState × Bool
  | p, [] => (p, false)
  | p, t :: rest =>
      if checkT p t then ((advanceT p).1, true) else isMatch p rest

/-- `Parser::error`: record `had_error` and build the (already reported)
`ParseError`. -/
def perr (p : PState) (tok : Token) (msg : String) : PState × LoxResult :=
  ({ p with hadError := true }, .parseError tok msg)

/-- `Parser::consume`. -/
def consumeT (p : PState) (t : TokenType) (msg : String) :
    PState × Except LoxResult Token :=
  if checkT p t then
    let (p1, tk) := advanceT p
    (p1, .ok tk)
  else
    let (p1, e) := perr p (peekT p) msg
    (p1, .error e)

/-- The statement-starting token types `synchronise` stops before. -/
def isBoundary : TokenType → Bool
  | .classT | .funT | .var | .forT | .ifT | .whileT | .print | .returnT => true
  | _ => false

/-- The token-discarding loop of `Parser::synchronise`. -/
def syncLoop : Nat → PState → PState
  | 0, p => p
  | fl + 1, p =>
      if isAtEnd p then p
      else if (previousT p).ttype == .semicolon then p
      else if isBoundary (peekT p).ttype then p
      else syncLoop fl (advanceT p).1

/-- `Parser::synchronise`: advance once, then discard to a boundary. -/
def synchronise (p : PState) : PState :=
  syncLoop (p.tokens.length + 1) (advanceT p).1

/-- `TokenType` to the evaluator's binary operator. -/
def binOpOfTtype : TokenType → BinOp
  | .minus => .minus | .plus => .plus | .slash => .slash | .star => .star
  | .greater => .greater | .greaterEqual => .greaterEqual
  | .less => .less | .lessEqual => .lessEqual
  | .bangEqual => .bangEqual | _ => .equalEqual

/-- A pending parser production; one constructor per recursive method of
`Parser` (the `while` loops become `...Loop` constructors carrying the
folded left operand or accumulator). -/
inductive PReq where
  | parseAll (acc : List Stmt)
  | declaration
  | statement
  | forStatement
  | ifStatement
  | whileStatement
  | returnStatement
  | varDeclaration
  | printStatement
  | expressionStatement
  | functionDecl (kind : String)
  | paramsLoop (kind : String) (acc : List Token)
  | blockStmts (acc : List Stmt)
  | expression
  | assignment
  | orE
  | orLoop (left : Expr)
  | andE
  | andLoop (left : Expr)
  | equality
  | equalityLoop (left : Expr)
  | comparison
  | comparisonLoop (left : Expr)
  | term
  | termLoop (left : Expr)
  | factor
  | factorLoop (left : Expr)
  | unaryE
  | callE
  | callLoop (left : Expr)
  | finishCall (callee : Expr)
  | argsLoop (acc : List Expr)
  | primary

/-- Parser results: an expression, a statement, statement/token/expression
lists. -/
inductive PRes where
  | ex (e : Expr)
  | st (s : Stmt)
  | sts (l : List Stmt)
  | toks (l : List Token)
  | exs (l : List Expr)

/-- The recursive-descent parser as one fuel-structural machine; each
recursive call spends one fuel.  A result of the wrong shape is
unreachable and maps to `panicked`. -/
def pexec : Nat → PState → PReq → PState × Except LoxResult PRes
  | 0, p, _ => (p, .error (.systemError "fuel"))
  | fl + 1, p, req =>
      match req with
      | .parseAll acc =>
          if isAtEnd p then (p, .ok (.sts acc))
          else
            match pexec fl p .declaration with
            | (p1, .error e) => (p1, .error e)
            | (p1, .ok (.st s)) => pexec fl p1 (.parseAll (acc ++ [s]))
            | (p1, .ok _) => (p1, .error panicked)
      | .declaration =>
          let step : PState × Except LoxResult PRes :=
            let (p1, mFun) := isMatch p [.funT]
            if mFun then pexec fl p1 (.functionDecl "function")
            else
              let (p2, mVar) := isMatch p1 [.var]
              if mVar then pexec fl p2 .varDeclaration
              else pexec fl p2 .statement
          match step with
          | (p1, .error e) => (synchronise p1, .error e)
          | (p1, .ok r) => (p1, .ok r)
      | .statement =>
          let (p1, mBreak) := isMatch p [.breakT]
          if mBreak then
            let token := peekT p1
            match consumeT p1 .semicolon "Expect \x27;\x27 after \x27break\x27." with
            | (p2, .error e) => (p2, .error e)
            | (p2, .ok _) => (p2, .ok (.st (.breakStmt token)))
          else
            let (p2, mFor) := isMatch p1 [.forT]
            if mFor then pexec fl p2 .forStatement
            else
              let (p3, mIf) := isMatch p2 [.ifT]
              if mIf then pexec fl p3 .ifStatement
              else
                let (p4, mPrint) := isMatch p3 [.print]
                if mPrint then pexec fl p4 .printStatement
                else
                  let (p5, mReturn) := isMatch p4 [.returnT]
                  if mReturn then pexec fl p5 .returnStatement
                  else
                    let (p6, mWhile) := isMatch p5 [.whileT]
                    if mWhile then pexec fl p6 .whileStatement
                    else
                      let (p7, mBrace) := isMatch p6 [.leftBrace]
                      if mBrace then
                        match pexec fl p7 (.blockStmts []) with
                        | (p8, .error e) => (p8, .error e)
                        | (p8, .ok (.sts l)) => (p8, .ok (.st (.block l)))
                        | (p8, .ok _) => (p8, .error panicked)
                      else pexec fl p7 .expressionStatement
      | .returnStatement =>
          let keyword := previousT p
          let valueStep : PState × Except LoxResult (Option Expr) :=
            if !checkT p .semicolon then
              match pexec fl p .expression with
              | (p1, .error e) => (p1, .error e)
              | (p1, .ok (.ex e)) => (p1, .ok (some e))
              | (p1, .ok _) => (p1, .error panicked)
            else (p, .ok none)
          match valueStep with
          | (p1, .error e) => (p1, .error e)
          | (p1, .ok value) =>
              match consumeT p1 .semicolon "Expect \x27;\x27 after return value." with
              | (p2, .error e) => (p2, .error e)
              | (p2, .ok _) => (p2, .ok (.st (.returnStmt keyword value)))
      | .forStatement =>
          match consumeT p .leftParen "Expect \x27(\x27 after \x27for\x27." with
          | (p1, .error e) => (p1, .error e)
          | (p1, .ok _) =>
          let (p2, mSemi) := isMatch p1 [.semicolon]
          let initStep : PState × Except LoxResult (Option Stmt) :=
            if mSemi then (p2, Except.ok (none : Option Stmt))
            else
              let (p3, mVar) := isMatch p2 [.var]
              if mVar then
                match pexec fl p3 .varDeclaration with
                | (p4, .error e) => (p4, .error e)
                | (p4, .ok (.st s)) => (p4, .ok (some s))
                | (p4, .ok _) => (p4, .error panicked)
              else
                match pexec fl p3 .expressionStatement with
                | (p4, .error e) => (p4, .error e)
                | (p4, .ok (.st s)) => (p4, .ok (some s))
                | (p4, .ok _) => (p4, .error panicked)
          match initStep with
          | (p4, .error e) => (p4, .error e)
          | (p4, .ok initializer) =>
          let condStep : PState × Except LoxResult (Option Expr) :=
            if !checkT p4 .semicolon then
              match pexec fl p4 .expression with
              | (p5, .error e) => (p5, .error e)
              | (p5, .ok (.ex e)) => (p5, .ok (some e))
              | (p5, .ok _) => (p5, .error panicked)
            else (p4, .ok none)
          match condStep with
          | (p5, .error e) => (p5, .error e)
          | (p5, .ok condition) =>
          match consumeT p5 .semicolon "Expect \x27;\x27 after loop condition." with
          | (p6, .error e) => (p6, .error e)
          | (p6, .ok _) =>
          let incStep : PState × Except LoxResult (Option Expr) :=
            if !checkT p6 .rightParen then
              match pexec fl p6 .expression with
              | (p7, .error e) => (p7, .error e)
              | (p7, .ok (.ex e)) => (p7, .ok (some e))
              | (p7, .ok _) => (p7, .error panicked)
            else (p6, .ok none)
          match incStep with
          | (p7, .error e) => (p7, .error e)
          | (p7, .ok increment) =>
          match consumeT p7 .rightParen "Expect \x27)\x27 after for clauses." with
          | (p8, .error e) => (p8, .error e)
          | (p8, .ok _) =>
          match pexec fl p8 .statement with
          | (p9, .error e) => (p9, .error e)
          | (p9, .ok (.st body0)) =>
              let body1 :=
                match increment with
                | some inc => Stmt.block [body0, .expression inc]
                | none => body0
              let body2 := Stmt.whileStmt
                (match condition with
                 | some c => c
                 | none => .literal (some (.bool true))) body1
              let body3 :=
                match initializer with
                | some ini => Stmt.block [ini, body2]
                | none => body2
              (p9, .ok (.st body3))
          | (p9, .ok _) => (p9, .error panicked)
      | .ifStatement =>
          match consumeT p .leftParen "Expect \x27(\x27 after \x27if\x27." with
          | (p1, .error e) => (p1, .error e)
          | (p1, .ok _) =>
          match pexec fl p1 .expression with
          | (p2, .error e) => (p2, .error e)
          | (p2, .ok (.ex condition)) =>
              match consumeT p2 .rightParen "Expect \x27(\x27 after \x27if\x27." with
              | (p3, .error e) => (p3, .error e)
              | (p3, .ok _) =>
              match pexec fl p3 .statement with
              | (p4, .error e) => (p4, .error e)
              | (p4, .ok (.st thenBranch)) =>
                  let (p5, mElse) := isMatch p4 [.elseT]
                  if mElse then
                    match pexec fl p5 .statement with
                    | (p6, .error e) => (p6, .error e)
                    | (p6, .ok (.st elseBranch)) =>
                        (p6, .ok (.st (.ifStmt condition thenBranch (some elseBranch))))
                    | (p6, .ok _) => (p6, .error panicked)
                  else (p5, .ok (.st (.ifStmt condition thenBranch none)))
              | (p4, .ok _) => (p4, .error panicked)
          | (p2, .ok _) => (p2, .error panicked)
      | .whileStatement =>
          match consumeT p .leftParen "Expect \x27(\x27 after \x27while\x27." with
          | (p1, .error e) => (p1, .error e)
          | (p1, .ok _) =>
          match pexec fl p1 .expression with
          | (p2, .error e) => (p2, .error e)
          | (p2, .ok (.ex condition)) =>
              match consumeT p2 .rightParen "Expect \x27)\x27 after \x27while\x27." with
              | (p3, .error e) => (p3, .error e)
              | (p3, .ok _) =>
              match pexec fl p3 .statement with
              | (p4, .error e) => (p4, .error e)
              | (p4, .ok (.st body)) => (p4, .ok (.st (.whileStmt condition body)))
              | (p4, .ok _) => (p4, .error panicked)
          | (p2, .ok _) => (p2, .error panicked)
      | .varDeclaration =>
          match consumeT p .identifier "Expect variable name." with
          | (p1, .error e) => (p1, .error e)
          | (p1, .ok name) =>
              let (p2, mEq) := isMatch p1 [.equal]
              let initStep : PState × Except LoxResult (Option Expr) :=
                if mEq then
                  match pexec fl p2 .expression with
                  | (p3, .error e) => (p3, .error e)
                  | (p3, .ok (.ex e)) => (p3, .ok (some e))
                  | (p3, .ok _) => (p3, .error panicked)
                else (p2, .ok none)
              match initStep with
              | (p3, .error e) => (p3, .error e)
              | (p3, .ok initializer) =>
                  match consumeT p3 .semicolon
                      "Expect \x27;\x27 after variable declaration." with
                  | (p4, .error e) => (p4, .error e)
                  | (p4, .ok _) => (p4, .ok (.st (.var name initializer)))
      | .printStatement =>
          match pexec fl p .expression with
          | (p1, .error e) => (p1, .error e)
          | (p1, .ok (.ex e)) =>
              match consumeT p1 .semicolon "Expect \x27;\x27 after value." with
              | (p2, .error e2) => (p2, .error e2)
              | (p2, .ok _) => (p2, .ok (.st (.print e)))
          | (p1, .ok _) => (p1, .error panicked)
      | .expressionStatement =>
          match pexec fl p .expression with
          | (p1, .error e) => (p1, .error e)
          | (p1, .ok (.ex e)) =>
              match consumeT p1 .semicolon "Expect \x27;\x27 after value." with
              | (p2, .error e2) => (p2, .error e2)
              | (p2, .ok _) => (p2, .ok (.st (.expression e)))
          | (p1, .ok _) => (p1, .error panicked)
      | .functionDecl kind =>
          match consumeT p .identifier ("Expect " ++ kind ++ " name.") with
          | (p1, .error e) => (p1, .error e)
          | (p1, .ok fnName) =>
          match consumeT p1 .leftParen ("Expect \x27(\x27 after " ++ kind ++ " name.") with
          | (p2, .error e) => (p2, .error e)
          | (p2, .ok _) =>
          let paramsStep : PState × Except LoxResult (List Token) :=
            if !checkT p2 .rightParen then
              match consumeT p2 .identifier "Expect parameter name." with
              | (p3, .error e) => (p3, .error e)
              | (p3, .ok first) =>
                  match pexec fl p3 (.paramsLoop kind [first]) with
                  | (p4, .error e) => (p4, .error e)
                  | (p4, .ok (.toks l)) => (p4, .ok l)
                  | (p4, .ok _) => (p4, .error panicked)
            else (p2, .ok [])
          match paramsStep with
          | (p4, .error e) => (p4, .error e)
          | (p4, .ok parameters) =>
          match consumeT p4 .rightParen "Expect \x27)\x27 after parameters." with
          | (p5, .error e) => (p5, .error e)
          | (p5, .ok _) =>
          match consumeT p5 .leftBrace ("Expect \x27\x7b\x27 before " ++ kind ++ " body.") with
          | (p6, .error e) => (p6, .error e)
          | (p6, .ok _) =>
          match pexec fl p6 (.blockStmts []) with
          | (p7, .error e) => (p7, .error e)
          | (p7, .ok (.sts body)) => (p7, .ok (.st (.function fnName parameters body)))
          | (p7, .ok _) => (p7, .error panicked)
      | .paramsLoop kind acc =>
          let (p1, mComma) := isMatch p [.comma]
          if mComma then
            if 255 ≤ acc.length && !p1.hadError then
              let pk := peekT p1
              let (p2, e) := perr p1 pk "Can\x27t have more than 255 parameters."
              (p2, .error e)
            else
              match consumeT p1 .identifier "Expect parameter name." with
              | (p2, .error e) => (p2, .error e)
              | (p2, .ok t) => pexec fl p2 (.paramsLoop kind (acc ++ [t]))
          else (p1, .ok (.toks acc))
      | .blockStmts acc =>
          if !checkT p .rightBrace && !isAtEnd p then
            match pexec fl p .declaration with
            | (p1, .error e) => (p1, .error e)
            | (p1, .ok (.st s)) => pexec fl p1 (.blockStmts (acc ++ [s]))
            | (p1, .ok _) => (p1, .error panicked)
          else
            match consumeT p .rightBrace "expect \x27\x7d\x27 after block." with
            | (p1, .error e) => (p1, .error e)
            | (p1, .ok _) => (p1, .ok (.sts acc))
      | .expression => pexec fl p .assignment
      | .assignment =>
          match pexec fl p .orE with
          | (p1, .error e) => (p1, .error e)
          | (p1, .ok (.ex expr)) =>
              let (p2, mEq) := isMatch p1 [.equal]
              if mEq then
                let equals := previousT p2
                match pexec fl p2 .assignment with
                | (p3, .error e) => (p3, .error e)
                | (p3, .ok (.ex value)) =>
                    match expr with
                    | .varE _ name =>
                        ({ p3 with nextId := p3.nextId + 1 },
                         .ok (.ex (.assign p3.nextId name value)))
                    | _ =>
                        let (p4, e) := perr p3 equals "Invalid assignment target."
                        (p4, .error e)
                | (p3, .ok _) => (p3, .error panicked)
              else (p2, .ok (.ex expr))
          | (p1, .ok _) => (p1, .error panicked)
      | .orE =>
          match pexec fl p .andE with
          | (p1, .error e) => (p1, .error e)
          | (p1, .ok (.ex left)) => pexec fl p1 (.orLoop left)
          | (p1, .ok _) => (p1, .error panicked)
      | .orLoop left =>
          let (p1, m) := isMatch p [.or]
          if m then
            match pexec fl p1 .andE with
            | (p2, .error e) => (p2, .error e)
            | (p2, .ok (.ex right)) =>
                pexec fl p2 (.orLoop (.logical left .or right))
            | (p2, .ok _) => (p2, .error panicked)
          else (p1, .ok (.ex left))
      | .andE =>
          match pexec fl p .equality with
          | (p1, .error e) => (p1, .error e)
          | (p1, .ok (.ex left)) => pexec fl p1 (.andLoop left)
          | (p1, .ok _) => (p1, .error panicked)
      | .andLoop left =>
          let (p1, m) := isMatch p [.and]
          if m then
            match pexec fl p1 .equality with
            | (p2, .error e) => (p2, .error e)
            | (p2, .ok (.ex right)) =>
                pexec fl p2 (.andLoop (.logical left .and right))
            | (p2, .ok _) => (p2, .error panicked)
          else (p1, .ok (.ex left))
      | .equality =>
          match pexec fl p .comparison with
          | (p1, .error e) => (p1, .error e)
          | (p1, .ok (.ex left)) => pexec fl p1 (.equalityLoop left)
          | (p1, .ok _) => (p1, .error panicked)
      | .equalityLoop left =>
          let (p1, m) := isMatch p [.bangEqual, .equalEqual]
          if m then
            let op := previousT p1
            match pexec fl p1 .comparison with
            | (p2, .error e) => (p2, .error e)
            | (p2, .ok (.ex right)) =>
                pexec fl p2 (.equalityLoop
                  (.binary left (binOpOfTtype op.ttype) op.line right))
            | (p2, .ok _) => (p2, .error panicked)
          else (p1, .ok (.ex left))
      | .comparison =>
          match pexec fl p .term with
          | (p1, .error e) => (p1, .error e)
          | (p1, .ok (.ex left)) => pexec fl p1 (.comparisonLoop left)
          | (p1, .ok _) => (p1, .error panicked)
      | .comparisonLoop left =>
          let (p1, m) := isMatch p [.greater, .greaterEqual, .less, .lessEqual]
          if m then
            let op := previousT p1
            match pexec fl p1 .term with
            | (p2, .error e) => (p2, .error e)
            | (p2, .ok (.ex right)) =>
                pexec fl p2 (.comparisonLoop
                  (.binary left (binOpOfTtype op.ttype) op.line right))
            | (p2, .ok _) => (p2, .error panicked)
          else (p1, .ok (.ex left))
      | .term =>
          match pexec fl p .factor with
          | (p1, .error e) => (p1, .error e)
          | (p1, .ok (.ex left)) => pexec fl p1 (.termLoop left)
          | (p1, .ok _) => (p1, .error panicked)
      | .termLoop left =>
          let (p1, m) := isMatch p [.minus, .plus]
          if m then
            let op := previousT p1
            match pexec fl p1 .factor with
            | (p2, .error e) => (p2, .error e)
            | (p2, .ok (.ex right)) =>
                pexec fl p2 (.termLoop
                  (.binary left (binOpOfTtype op.ttype) op.line right))
            | (p2, .ok _) => (p2, .error panicked)
          else (p1, .ok (.ex left))
      | .factor =>
          match pexec fl p .unaryE with
          | (p1, .error e) => (p1, .error e)
          | (p1, .ok (.ex left)) => pexec fl p1 (.factorLoop left)
          | (p1, .ok _) => (p1, .error panicked)
      | .factorLoop left =>
          let (p1, m) := isMatch p [.slash, .star]
          if m then
            let op := previousT p1
            match pexec fl p1 .unaryE with
            | (p2, .error e) => (p2, .error e)
            | (p2, .ok (.ex right)) =>
                pexec fl p2 (.factorLoop
                  (.binary left (binOpOfTtype op.ttype) op.line right))
            | (p2, .ok _) => (p2, .error panicked)
          else (p1, .ok (.ex left))
      | .unaryE =>
          let (p1, m) := isMatch p [.bang, .minus]
          if m then
            let op := previousT p1
            match pexec fl p1 .unaryE with
            | (p2, .error e) => (p2, .error e)
            | (p2, .ok (.ex right)) =>
                (p2, .ok (.ex (.unary
                  (if op.ttype == .bang then .bang else .minus) op.line right)))
            | (p2, .ok _) => (p2, .error panicked)
          else pexec fl p1 .callE
      | .callE =>
          match pexec fl p .primary with
          | (p1, .error e) => (p1, .error e)
          | (p1, .ok (.ex e)) => pexec fl p1 (.callLoop e)
          | (p1, .ok _) => (p1, .error panicked)
      | .callLoop left =>
          let (p1, m) := isMatch p [.leftParen]
          if m then
            match pexec fl p1 (.finishCall left) with
            | (p2, .error e) => (p2, .error e)
            | (p2, .ok (.ex e)) => pexec fl p2 (.callLoop e)
            | (p2, .ok _) => (p2, .error panicked)
          else (p1, .ok (.ex left))
      | .finishCall callee =>
          let argsStep : PState × Except LoxResult (List Expr) :=
            if !checkT p .rightParen then
              match pexec fl p .expression with
              | (p1, .error e) => (p1, .error e)
              | (p1, .ok (.ex first)) =>
                  match pexec fl p1 (.argsLoop [first]) with
                  | (p2, .error e) => (p2, .error e)
                  | (p2, .ok (.exs l)) => (p2, .ok l)
                  | (p2, .ok _) => (p2, .error panicked)
              | (p1, .ok _) => (p1, .error panicked)
            else (p, .ok [])
          match argsStep with
          | (p2, .error e) => (p2, .error e)
          | (p2, .ok arguments) =>
              match consumeT p2 .rightParen "Expect \x27)\x27 after arguments." with
              | (p3, .error e) => (p3, .error e)
              | (p3, .ok paren) => (p3, .ok (.ex (.call callee paren arguments)))
      | .argsLoop acc =>
          let (p1, m) := isMatch p [.comma]
          if m then
            match pexec fl p1 .expression with
            | (p2, .error e) => (p2, .error e)
            | (p2, .ok (.ex e)) => pexec fl p2 (.argsLoop (acc ++ [e]))
            | (p2, .ok _) => (p2, .error panicked)
          else (p1, .ok (.exs acc))
      | .primary =>
          let (p1, mFalse) := isMatch p [.falseT]
          if mFalse then (p1, .ok (.ex (.literal (some (.bool false)))))
          else
            let (p2, mTrue) := isMatch p1 [.trueT]
            if mTrue then (p2, .ok (.ex (.literal (some (.bool true)))))
            else
              let (p3, mNil) := isMatch p2 [.nil]
              if mNil then (p3, .ok (.ex (.literal (some .nil))))
              else
                let (p4, mLit) := isMatch p3 [.number, .string]
                if mLit then
                  match (previousT p4).literal with
                  | some l => (p4, .ok (.ex (.literal (some l))))
                  | none => (p4, .error panicked)
                else
                  let (p5, mParen) := isMatch p4 [.leftParen]
                  if mParen then
                    match pexec fl p5 .expression with
                    | (p6, .error e) => (p6, .error e)
                    | (p6, .ok (.ex e)) =>
                        match consumeT p6 .rightParen
                            "Expect \x27)\x27 after expression." with
                        | (p7, .error e2) => (p7, .error e2)
                        | (p7, .ok _) => (p7, .ok (.ex (.grouping e)))
                    | (p6, .ok _) => (p6, .error panicked)
                  else
                    let (p6, mIdent) := isMatch p5 [.identifier]
                    if mIdent then
                      ({ p6 with nextId := p6.nextId + 1 },
                       .ok (.ex (.varE p6.nextId (previousT p6))))
                    else
                      (p6, .error (.parseError (peekT p6) "Expect expression."))

/-- `Parser::new` + `Parser::parse` on a token list. -/
def parseProgram (fuel : Nat) (tokens : List Token) :
    PState × Except LoxResult (List Stmt) :=
  match pexec fuel ⟨tokens, 0, false, 0⟩ (.parseAll []) with
  | (p1, .ok (.sts l)) => (p1, .ok l)
  | (p1, .ok _) => (p1, .error panicked)
  | (p1, .error e) => (p1, .error e)

/-! ## The static resolver

Modelled from the spec: the resolver pass is code of this repository that
is not under `src/` — only its output contract exists there
(`Interpreter::resolve`/`locals` and the `lookup_variable`/`visit_assign_expr`
consumers), and the spec (§4.2, §9) specifies its behaviour: a static
depth-first walk carrying a stack of scopes of declared names (no scope for
the top level), recording for each variable reference or assignment target
the number of scopes between its use and the innermost tracked scope that
declares it, and leaving references to undeclared (global) names absent
from the table.  A function declares its name in the enclosing scope before
its body is resolved in a fresh scope holding its parameters. -/

/-- Resolver state: the static scope stack (innermost first) and the
accumulated distance table. -/
structure RState where
  scopes : List (List String)
  locals : Locals

/-- Distance from the innermost scope to the first scope declaring `n`. -/
def findScope : List (List String) → String → Option Nat
  | [], _ => none
  | s :: rest, n =>
      if s.contains n then some 0
      else (findScope rest n).map (· + 1)

/-- Declare a name in the innermost tracked scope (top level: none). -/
def declareName (sc : List (List String)) (n : String) : List (List String) :=
  match sc with
  | [] => []
  | s :: rest => (s ++ [n]) :: rest

/-- Pending resolver work. -/
inductive RReq where
  | rexpr (e : Expr)
  | rexprs (l : List Expr)
  | rstmt (s : Stmt)
  | rstmts (l : List Stmt)

/-- Modelled from the spec: the resolver's depth-first walk (see the
section comment above), fuel-structural like the other tree walks. -/
def rexec : Nat → RState → RReq → RState
  | 0, r, _ => r
  | fl + 1, r, req =>
      match req with
      | .rexpr e =>
          match e with
          | .literal _ => r
          | .grouping e1 => rexec fl r (.rexpr e1)
          | .unary _ _ e1 => rexec fl r (.rexpr e1)
          | .binary e1 _ _ e2 =>
              rexec fl (rexec fl r (.rexpr e1)) (.rexpr e2)
          | .logical e1 _ e2 =>
              rexec fl (rexec fl r (.rexpr e1)) (.rexpr e2)
          | .varE id name =>
              match findScope r.scopes name.lexeme with
              | some d => { r with locals := r.locals ++ [(id, d)] }
              | none => r
          | .assign id name e1 =>
              let r1 := rexec fl r (.rexpr e1)
              match findScope r1.scopes name.lexeme with
              | some d => { r1 with locals := r1.locals ++ [(id, d)] }
              | none => r1
          | .call callee _ arguments =>
              rexec fl (rexec fl r (.rexpr callee)) (.rexprs arguments)
      | .rexprs l =>
          match l with
          | [] => r
          | e :: rest => rexec fl (rexec fl r (.rexpr e)) (.rexprs rest)
      | .rstmt s =>
          match s with
          | .block statements =>
              let r1 := rexec fl { r with scopes := [] :: r.scopes }
                (.rstmts statements)
              { r1 with scopes := r1.scopes.drop 1 }
          | .ifStmt c t e =>
              let r1 := rexec fl (rexec fl r (.rexpr c)) (.rstmt t)
              match e with
              | some s1 => rexec fl r1 (.rstmt s1)
              | none => r1
          | .expression e => rexec fl r (.rexpr e)
          | .function name ps body =>
              let r1 := { r with scopes := declareName r.scopes name.lexeme }
              let r2 := rexec fl
                { r1 with scopes := (ps.map (·.lexeme)) :: r1.scopes }
                (.rstmts body)
              { r2 with scopes := r2.scopes.drop 1 }
          | .breakStmt _ => r
          | .print e => rexec fl r (.rexpr e)
          | .returnStmt _ value =>
              match value with
              | some e => rexec fl r (.rexpr e)
              | none => r
          | .var name initializer =>
              let r1 :=
                match initializer with
                | some e => rexec fl r (.rexpr e)
                | none => r
              { r1 with scopes := declareName r1.scopes name.lexeme }
          | .whileStmt c b =>
              rexec fl (rexec fl r (.rexpr c)) (.rstmt b)
      | .rstmts l =>
          match l with
          | [] => r
          | s :: rest => rexec fl (rexec fl r (.rstmt s)) (.rstmts rest)

/-- Modelled from the spec: run the resolver on a whole program, giving
the `locals` table the interpreter is run with. -/
def resolveProgram (fuel : Nat) (stmts : List Stmt) : Locals :=
  (rexec fuel ⟨[], []⟩ (.rstmts stmts)).locals

/-! ## Chain walks of the environment, as predicates for theorems -/

/-- Follow `d` enclosing links from address `a` (the walk `get_at` and
`assign_at` perform). -/
def walkN (h : Heap) : Nat → Nat → Option Nat
  | 0, a => some a
  | d + 1, a =>
      match getScope h a with
      | some e =>
          match e.enclosing with
          | some b => walkN h d b
          | none => none
      | none => none

/-- The scopes visited by the outward walk of `Environment::get`/`assign`,
outward from address `a`, within `fuel` steps. -/
def chainList (h : Heap) : Nat → Nat → List EnvScope
  | 0, _ => []
  | fl + 1, a =>
      match getScope h a with
      | none => []
      | some e =>
          e :: (match e.enclosing with
                | none => []
                | some b => chainList h fl b)

/-- The outward walk from `a` reaches a root scope (no enclosing link)
within `fuel` steps. -/
def reachesRoot (h : Heap) : Nat → Nat → Bool
  | 0, _ => false
  | fl + 1, a =>
      match getScope h a with
      | none => false
      | some e =>
          match e.enclosing with
          | none => true
          | some b => reachesRoot h fl b

/-- The six relational/equality operators of the claim about
`visit_binary_expr`'s comparison arms. -/
def isCmpOp : BinOp → Bool
  | .greater | .less | .greaterEqual | .lessEqual | .bangEqual | .equalEqual => true
  | _ => false

/-- The same-tag comparison each of the six operators returns, through the
source's `PartialOrd`/`PartialEq` on `Object`. -/
def cmpResult : BinOp → Obj → Obj → Bool
  | .greater, l, r => l.gtb r
  | .less, l, r => l.ltb r
  | .greaterEqual, l, r => l.geb r
  | .lessEqual, l, r => l.leb r
  | .bangEqual, l, r => !(l.peq r)
  | _, l, r => l.peq r

/-! ## Concrete programs used by individual claims -/

def idTok (s : String) : Token := ⟨.identifier, s, none, 1⟩

def numTok (k : Int) (s : String) : Token := ⟨.number, s, some (.num (Num.ofInt k)), 1⟩

def semiTok : Token := ⟨.semicolon, ";", none, 1⟩

def eofT : Token := ⟨.eof, "", none, 1⟩

def brkTok : Token := ⟨.breakT, "break", none, 1⟩

def litTrue : Expr := .literal (some (.bool true))

/-- `while (true) break;` -/
def whileTrueBreak : Stmt := .whileStmt litTrue (.breakStmt brkTok)

/-- `while (true) while (true) break;` — the break sits in the inner of
two nested loops. -/
def nestedWhileBreak : Stmt := .whileStmt litTrue whileTrueBreak

/-- Tokens of the two-statement program `+; print 1;` whose first
statement is malformed and whose second is well-formed. -/
def brokenTokens : List Token :=
  [⟨.plus, "+", none, 1⟩, semiTok, ⟨.print, "print", none, 1⟩,
   numTok 1 "1", semiTok, eofT]

/-- Tokens of the well-formed suffix `print 1;` alone. -/
def printOneTokens : List Token :=
  [⟨.print, "print", none, 1⟩, numTok 1 "1", semiTok, eofT]

/-- Tokens of `for (var i = 0; i < 3; i = i + 1) print i;`. -/
def forTokens : List Token :=
  [⟨.forT, "for", none, 1⟩, ⟨.leftParen, "(", none, 1⟩, ⟨.var, "var", none, 1⟩,
   idTok "i", ⟨.equal, "=", none, 1⟩, numTok 0 "0", semiTok,
   idTok "i", ⟨.less, "<", none, 1⟩, numTok 3 "3", semiTok,
   idTok "i", ⟨.equal, "=", none, 1⟩, idTok "i", ⟨.plus, "+", none, 1⟩,
   numTok 1 "1", ⟨.rightParen, ")", none, 1⟩, ⟨.print, "print", none, 1⟩,
   idTok "i", semiTok, eofT]

def iTok : Token := idTok "i"

/-- The desugared form `for_statement` produces for `forTokens`: an
initializer block wrapping a `while` whose body has the increment
appended (node ids as the parser allocates them). -/
def c3Ast : List Stmt :=
  [.block
    [.var iTok (some (.literal (some (.num 0)))),
     .whileStmt (.binary (.varE 0 iTok) .less 1 (.literal (some (.num 3))))
       (.block
         [.print (.varE 4 iTok),
          .expression (.assign 3 iTok
            (.binary (.varE 2 iTok) .plus 1 (.literal (some (.num 1)))))])]]

/-- The resolver's table for `c3Ast`. -/
def c3Locals : Locals := [(0, 0), (4, 1), (2, 1), (3, 1)]

/-- `{ var a = 1; print a; }` — a shadowing-free program whose variable
lives in a block scope, not in globals. -/
def aTok : Token := idTok "a"

def c5Prog : List Stmt :=
  [.block [.var aTok (some (.literal (some (.num 1)))), .print (.varE 0 aTok)]]

/-! The claim-C4 counter program, hand-built with explicit node ids:
```
fun makeCounter() { var i = 0; fun count() { i = i + 1; return i; } return count; }
var c1 = makeCounter();
var c2 = makeCounter();
```
-/

def countTok : Token := idTok "count"

def mkCounterTok : Token := idTok "makeCounter"

def c1Tok : Token := idTok "c1"

def c2Tok : Token := idTok "c2"

def parenTok : Token := ⟨.rightParen, ")", none, 1⟩

def returnTok : Token := ⟨.returnT, "return", none, 1⟩

/-- Body of the inner `count`: `i = i + 1; return i;`. -/
def countBody : List Stmt :=
  [.expression (.assign 1 iTok
     (.binary (.varE 0 iTok) .plus 1 (.literal (some (.num 1))))),
   .returnStmt returnTok (some (.varE 2 iTok))]

/-- Body of `makeCounter`. -/
def makeCounterBody : List Stmt :=
  [.var iTok (some (.literal (some (.num 0)))),
   .function countTok [] countBody,
   .returnStmt returnTok (some (.varE 3 countTok))]

/-- The three top-level statements creating two independent counters. -/
def counterSetup : List Stmt :=
  [.function mkCounterTok [] makeCounterBody,
   .var c1Tok (some (.call (.varE 4 mkCounterTok) parenTok [])),
   .var c2Tok (some (.call (.varE 5 mkCounterTok) parenTok []))]

/-- The resolver's table for `counterSetup` (both inner references to `i`
and the assignment target resolve one scope out; `count` resolves in the
current function scope). -/
def counterLocals : Locals := [(0, 1), (1, 1), (2, 1), (3, 0)]

/-- The closure value `count` with identity `fid` over the environment at
address `addr`. -/
def countFunc (fid addr : Nat) : FuncVal := .user fid "count" [] countBody addr

/-- The globals scope after `counterSetup` has run. -/
def counterGlobals : EnvScope :=
  ⟨[("clock", .func (.native 0)),
    ("makeCounter", .func (.user 1 "makeCounter" [] makeCounterBody 0)),
    ("c1", .func (countFunc 2 1)), ("c2", .func (countFunc 3 2))], none⟩

/-- The environment of one `makeCounter()` call frame: the counter cell
`i` and the `count` binding, enclosed by globals. -/
def counterEnv (fid addr : Nat) (v : Num) : EnvScope :=
  ⟨[("i", .num v), ("count", .func (countFunc fid addr))], some 0⟩

/-- The dead call frame each `count()` call leaves behind (no parameters,
enclosing the counter environment at address 1 or 2). -/
def deadFrame (addr : Nat) : EnvScope := ⟨[], some addr⟩

/-- The family of states reachable by calling the two counters after
`counterSetup`: counter values `v1`, `v2`, dead frames `ex`, output so
far `out`. -/
def counterState (ex : List EnvScope) (out : List String) (v1 v2 : Num) :
    State :=
  { heap := counterGlobals :: counterEnv 2 1 v1 :: counterEnv 3 2 v2 :: ex,
    cursor := 0, nesting := 0, nextFid := 4, output := out }

/-- The call expression `c1()` (its node id is absent from
`counterLocals`, so the callee resolves through globals). -/
def callC1 : Expr := .call (.varE 6 c1Tok) parenTok []

/-- The call expression `c2()`. -/
def callC2 : Expr := .call (.varE 7 c2Tok) parenTok []

/-- `v + 1` taken `k` times, the counter value after `k` calls. -/
def iterAdd (v : Num) : Nat → Num
  | 0 => v
  | k + 1 => (iterAdd v k).add (Num.ofInt 1)

/-- One call of a counter closure (fuel 20 amply covers the call's
recursion depth). -/
def callOnce (e : Expr) (st : State) : State × Except LoxResult Res :=
  exec counterLocals 20 st (.expr e)

/-- A sequence of counter calls: `true` calls `c1()`, `false` calls
`c2()`; collects each call's returned value. -/
def callSeq : List Bool → State → List Obj × State
  | [], st => ([], st)
  | b :: rest, st =>
      match callOnce (if b then callC1 else callC2) st with
      | (st1, .ok (.obj v)) =>
          match callSeq rest st1 with
          | (vs, st2) => (v :: vs, st2)
      | (st1, _) => ([], st1)

/-- The value each call in an interleaved sequence returns, given the two
counters' current values: each `c1()` yields and stores `v1 + 1`, each
`c2()` yields and stores `v2 + 1`, independently. -/
def counterValues (v1 v2 : Num) : List Bool → List Obj
  | [] => []
  | true :: rest =>
      .num (v1.add (Num.ofInt 1)) :: counterValues (v1.add (Num.ofInt 1)) v2 rest
  | false :: rest =>
      .num (v2.add (Num.ofInt 1)) :: counterValues v1 (v2.add (Num.ofInt 1)) rest

/-! # Theorems for the claims -/

/-- C1: the claim fails on the code.  Executing `while (true) break;` does
not consume the `Break` signal in `visit_while_stmt`: the `?` on the body
propagates it out of the loop (and, nested, out of every enclosing loop),
`interpret` reports it as an error, and the nesting counter is never
decremented on that path.  Only the claim's second half holds: with the
nesting counter at zero, `break` is the "Can't break outside of loop"
runtime error. -/
theorem break_escapes_enclosing_while :
    exec [] 9 initState (.stmt whileTrueBreak)
      = ({ initState with nesting := 1 }, .error .breakSignal) ∧
    exec [] 9 initState (.stmt nestedWhileBreak)
      = ({ initState with nesting := 2 }, .error .breakSignal) ∧
    interpret [] 9 initState [whileTrueBreak]
      = ({ initState with nesting := 1 }, true) ∧
    execStmt [] 9 initState (.breakStmt brkTok)
      = (initState, .error (.runtimeError brkTok "Can\x27t break outside of loop")) :=
  ⟨rfl, rfl, rfl, rfl⟩

/-- C2: the claim fails on the code.  On `+; print 1;` the parser reports
the error at `+`, `declaration` synchronises (the final `current` index
sits at the well-formed `print` statement), yet `parse`'s `?` propagates
the first error, so no best-effort statement list is produced — although
the same suffix alone parses fine. -/
theorem parse_stops_at_first_error :
    (parseProgram 99 brokenTokens).2
      = .error (.parseError ⟨.plus, "+", none, 1⟩ "Expect expression.") ∧
    (parseProgram 99 brokenTokens).1.current = 2 ∧
    (parseProgram 99 printOneTokens).2
      = .ok [.print (.literal (some (.num 1)))] :=
  ⟨rfl, rfl, rfl⟩

/-- C3: parsing `for (var i = 0; i < 3; i = i + 1) print i;` yields the
desugared initializer block wrapping a `while` with the increment appended
(`c3Ast`), the resolver assigns the distances `c3Locals`, and executing it
terminates with no error having printed `0`, `1`, `2` in order. -/
theorem for_loop_prints_0_1_2 :
    (parseProgram 99 forTokens).2 = .ok c3Ast ∧
    resolveProgram 99 c3Ast = c3Locals ∧
    (interpret c3Locals 99 initState c3Ast).2 = false ∧
    (interpret c3Locals 99 initState c3Ast).1.output = ["0", "1", "2"] :=
  ⟨rfl, rfl, rfl, rfl⟩

/-- C5, counterexample: the shadowing-free program `{ var a = 1; print a; }`
prints `1` when run with the resolver's distances, but fails with an
"undefined variable" runtime error when run with an empty locals table,
because the fallback lookup consults only the global scope while `a` lives
in the block's scope. -/
theorem resolved_and_fallback_runs_disagree :
    resolveProgram 99 c5Prog = [(0, 0)] ∧
    (interpret [(0, 0)] 99 initState c5Prog).1.output = ["1"] ∧
    (interpret [(0, 0)] 99 initState c5Prog).2 = false ∧
    (interpret [] 99 initState c5Prog).1.output = [] ∧
    (interpret [] 99 initState c5Prog).2 = true :=
  ⟨rfl, rfl, rfl, rfl, rfl⟩

/-- C6: `execute_block` always reinstates the current-environment cursor
that was in force before block entry — for every statement list, every
environment, every fuel and every outcome (success, runtime error, `Break`
or `ReturnValue` signal), because the swap-back is unconditional. -/
theorem execute_block_restores_cursor (L : Locals) (fl : Nat) (st : State)
    (l : List Stmt) (env : EnvScope) :
    ((executeBlock L fl st l env).1).cursor = st.cursor := by
  cases fl with
  | zero => rfl
  | succ fl =>
      unfold executeBlock exec
      rcases h : exec L fl
          { st with heap := st.heap ++ [env], cursor := st.heap.length }
          (.stmts l) with ⟨st2, r⟩
      cases r <;> simp [h]

/-! ## Helper lemmas (shared) -/

theorem lookupVal_insertVal_self (vs : Values) (n : String) (v : Obj) :
    lookupVal (insertVal vs n v) n = some v := by
  induction vs with
  | nil => simp [insertVal, lookupVal]
  | cons kv rest ih =>
      rcases kv with ⟨k, w⟩
      by_cases hk : k = n
      · simp [insertVal, hk, lookupVal]
      · simp [insertVal, hk, lookupVal, ih]

theorem getScope_set_self (h : Heap) :
    ∀ (a : Nat) (e e2 : EnvScope), getScope h a = some e →
      getScope (setScope h a e2) a = some e2 := by
  induction h with
  | nil => intro a e e2 hg; simp [getScope] at hg
  | cons x h ih =>
      intro a e e2 hg
      cases a with
      | zero => simp [getScope, setScope]
      | succ a =>
          simp only [getScope] at hg ⊢
          simpa [setScope] using ih a e e2 hg

/-- C7: under the resolver's precondition — the chain has at least `d`
enclosing links from `a`, reaching scope `b`, and that exact scope binds
`n` — `get_at` walks exactly `d` links and returns that binding (its two
`unwrap` panics are unreachable), and `assign_at` writes `n` directly in
that exact scope. -/
theorem get_at_assign_at_exact_walk (h : Heap) :
    ∀ (d a b : Nat) (e : EnvScope) (n : String) (v v2 : Obj),
      walkN h d a = some b → getScope h b = some e →
      lookupVal e.values n = some v →
      getAt h a d n = some v ∧
      assignAt h a d n v2
        = some (setScope h b { e with values := insertVal e.values n v2 }) := by
  intro d
  induction d with
  | zero =>
      intro a b e n v v2 hw hs hl
      have hab : a = b := by simpa [walkN] using hw
      subst hab
      exact ⟨by simp [getAt, hs, hl], by simp [assignAt, hs]⟩
  | succ d ih =>
      intro a b e n v v2 hw hs hl
      rcases hg : getScope h a with _ | e0
      · simp [walkN, hg] at hw
      · rcases henc : e0.enclosing with _ | c
        · simp [walkN, hg, henc] at hw
        · have hw2 : walkN h d c = some b := by simpa [walkN, hg, henc] using hw
          have := ih c b e n v v2 hw2 hs hl
          exact ⟨by simpa [getAt, hg, henc] using this.1,
                 by simpa [assignAt, hg, henc] using this.2⟩

theorem envAssign_no_binding (h : Heap) :
    ∀ (fl a : Nat) (tok : Token) (v : Obj),
      reachesRoot h fl a = true →
      (∀ e ∈ chainList h fl a, lookupVal e.values tok.lexeme = none) →
      envAssign h fl a tok v = .error (undefinedVar tok) := by
  intro fl
  induction fl with
  | zero => intro a tok v hr; simp [reachesRoot] at hr
  | succ fl ih =>
      intro a tok v hr hc
      rcases hg : getScope h a with _ | e
      · simp [reachesRoot, hg] at hr
      · have hnone : lookupVal e.values tok.lexeme = none :=
          hc e (by simp [chainList, hg])
        rcases henc : e.enclosing with _ | b
        · simp [envAssign, hg, hnone, henc]
        · have hr2 : reachesRoot h fl b = true := by
            simpa [reachesRoot, hg, henc] using hr
          have hc2 : ∀ e2 ∈ chainList h fl b,
              lookupVal e2.values tok.lexeme = none := by
            intro e2 he2
            exact hc e2 (by simp [chainList, hg, henc, he2])
          simp [envAssign, hg, hnone, henc, ih b tok v hr2 hc2]

theorem envAssign_finds_binding (h : Heap) :
    ∀ (fl a : Nat) (tok : Token) (v : Obj),
      (∃ e ∈ chainList h fl a, lookupVal e.values tok.lexeme ≠ none) →
      ∃ h2, envAssign h fl a tok v = .ok h2 := by
  intro fl
  induction fl with
  | zero => intro a tok v hex; simp [chainList] at hex
  | succ fl ih =>
      intro a tok v hex
      rcases hg : getScope h a with _ | e
      · simp [chainList, hg] at hex
      · rcases hl : lookupVal e.values tok.lexeme with _ | w
        · rcases henc : e.enclosing with _ | b
          · exfalso
            rcases hex with ⟨e2, he2, hne⟩
            simp [chainList, hg, henc] at he2
            subst he2
            exact hne hl
          · have hex2 : ∃ e2 ∈ chainList h fl b,
                lookupVal e2.values tok.lexeme ≠ none := by
              rcases hex with ⟨e2, he2, hne⟩
              simp [chainList, hg, henc] at he2
              rcases he2 with he2 | he2
              · exact absurd (he2 ▸ hl) hne
              · exact ⟨e2, he2, hne⟩
            rcases ih b tok v hex2 with ⟨h2, hh2⟩
            exact ⟨h2, by simp [envAssign, hg, hl, henc, hh2]⟩
        · exact ⟨setScope h a { e with values := insertVal e.values tok.lexeme v },
            by simp [envAssign, hg, hl]⟩

/-- C9: `define` unconditionally inserts or overwrites in the current
scope (so `var` re-declaration replaces the prior binding without error),
while `assign` requires a pre-existing binding on the outward walk: when no
scope of the chain binds the name it fails with the "undefined variable"
runtime error carrying the offending token, and when some scope does, it
succeeds. -/
theorem define_overwrites_assign_requires_binding :
    (∀ (h : Heap) (a : Nat) (e : EnvScope) (n : String) (v : Obj),
        getScope h a = some e →
        getScope (envDefine h a n v) a
          = some ⟨insertVal e.values n v, e.enclosing⟩ ∧
        lookupVal (insertVal e.values n v) n = some v) ∧
    (∀ (h : Heap) (fl a : Nat) (tok : Token) (v : Obj),
        reachesRoot h fl a = true →
        (∀ e ∈ chainList h fl a, lookupVal e.values tok.lexeme = none) →
        envAssign h fl a tok v
          = .error (.runtimeError tok
              ("Undefined variable \x27" ++ tok.display ++ "\x27."))) ∧
    (∀ (h : Heap) (fl a : Nat) (tok : Token) (v : Obj),
        (∃ e ∈ chainList h fl a, lookupVal e.values tok.lexeme ≠ none) →
        ∃ h2, envAssign h fl a tok v = .ok h2) := by
  refine ⟨?_, ?_, ?_⟩
  · intro h a e n v hg
    refine ⟨?_, lookupVal_insertVal_self e.values n v⟩
    have := getScope_set_self h a e { e with values := insertVal e.values n v } hg
    simpa [envDefine, hg] using this
  · intro h fl a tok v hr hc
    exact envAssign_no_binding h fl a tok v hr hc
  · intro h fl a tok v hex
    exact envAssign_finds_binding h fl a tok v hex

/-- C8: each of the six relational/equality operators returns a runtime
type error exactly when the operand tags differ, and otherwise the boolean
of the same-tag comparison through `Object`'s `PartialOrd`/`PartialEq`;
internally `Nil` still orders below every non-nil value, yet any
comparison pairing `nil` with another tag is rejected (a special case of
the different-tag arm). -/
theorem comparison_requires_same_tag (op : BinOp) (line : Nat) (l r : Obj)
    (hop : isCmpOp op = true) :
    (l.getType = r.getType →
        binOpEval op line l r = .ok (.bool (cmpResult op l r))) ∧
    (l.getType ≠ r.getType →
        binOpEval op line l r
          = .error (.genericError line
              "invalid expression:operands are different types")) ∧
    (∀ x : Obj, x.getType ≠ "nil" → Obj.cmp .nil x = some .lt) := by
  refine ⟨?_, ?_, ?_⟩
  · intro he
    cases op <;> simp_all [binOpEval, isCmpOp, cmpResult]
  · intro hne
    cases op <;> simp_all [binOpEval, isCmpOp, cmpResult]
  · intro x hx
    cases x <;> simp_all [Obj.cmp, Obj.getType]

/-- C8 witness. -/
theorem comparison_requires_same_tag_w :
    binOpEval .less 7 (.num 1) (.num 2) = .ok (.bool true) ∧
    binOpEval .equalEqual 7 .nil (.num 1)
      = .error (.genericError 7
          "invalid expression:operands are different types") := by
  constructor
  · have h := (comparison_requires_same_tag .less 7 (.num 1) (.num 2) rfl).1 rfl
    simpa [cmpResult, Obj.ltb, Obj.cmp, Num.vlt, Num.veq] using h
  · exact (comparison_requires_same_tag .equalEqual 7 .nil (.num 1) rfl).2.1
      (by simp [Obj.getType])

/-- C10: at the function-call boundary of `LoxFunction::call`, a body that
completes without executing a `return` yields `nil`; a `ReturnValue`
signal from the body is converted back into the plain returned value; and
a bare `return;` raises `ReturnValue(nil)`. -/
theorem call_completion_yields_nil (L : Locals) (fl : Nat) (st : State)
    (fid : Nat) (nm : String) (ps : List Token) (body : List Stmt) (cl : Nat)
    (vs : List Obj) :
    ((exec L fl st (.block body ⟨bindParams ps vs, some cl⟩)).2 = .ok .unit →
        callFunction L (fl + 1) st (.user fid nm ps body cl) vs
          = ((exec L fl st (.block body ⟨bindParams ps vs, some cl⟩)).1,
             .ok .nil)) ∧
    (∀ v, (exec L fl st (.block body ⟨bindParams ps vs, some cl⟩)).2
          = .error (.returnValue v) →
        callFunction L (fl + 1) st (.user fid nm ps body cl) vs
          = ((exec L fl st (.block body ⟨bindParams ps vs, some cl⟩)).1,
             .ok v)) ∧
    (∀ tok, execStmt L (fl + 1) st (.returnStmt tok none)
          = (st, .error (.returnValue .nil))) := by
  refine ⟨?_, ?_, ?_⟩
  · intro hok
    rcases hb : exec L fl st (.block body ⟨bindParams ps vs, some cl⟩)
      with ⟨st1, r⟩
    rw [hb] at hok
    simp at hok
    subst hok
    simp [callFunction, exec, hb]
  · intro v hret
    rcases hb : exec L fl st (.block body ⟨bindParams ps vs, some cl⟩)
      with ⟨st1, r⟩
    rw [hb] at hret
    simp at hret
    subst hret
    simp [callFunction, exec, hb]
  · intro tok
    simp [execStmt, exec]

/-- C5, amended: the program-level round trip fails (see the
counterexample), because the empty-locals fallback consults only the
global scope; what does hold, and what the spec's round-trip sentence can
soundly say, is the environment-level agreement: on any chain without
shadowing of `n` along the walk (no scope strictly nearer than distance
`d` binds `n`), the resolver-driven `get_at(d, n)` returns exactly the
value that the outward-walk `Environment::get` lookup started at the same
scope returns. -/
theorem resolved_lookup_matches_outward_walk (h : Heap) :
    ∀ (d a b fl : Nat) (e : EnvScope) (tok : Token) (v : Obj),
      walkN h d a = some b → getScope h b = some e →
      lookupVal e.values tok.lexeme = some v →
      (∀ j c ej, j < d → walkN h j a = some c → getScope h c = some ej →
          lookupVal ej.values tok.lexeme = none) →
      d < fl →
      getAt h a d tok.lexeme = some v ∧ envGet h fl a tok = .ok v := by
  intro d
  induction d with
  | zero =>
      intro a b fl e tok v hw hs hl _ hfl
      have hab : a = b := by simpa [walkN] using hw
      subst hab
      rcases fl with _ | fl
      · omega
      · exact ⟨by simp [getAt, hs, hl], by simp [envGet, hs, hl]⟩
  | succ d ih =>
      intro a b fl e tok v hw hs hl hnear hfl
      rcases hg : getScope h a with _ | e0
      · simp [walkN, hg] at hw
      · rcases henc : e0.enclosing with _ | c
        · simp [walkN, hg, henc] at hw
        · have hw2 : walkN h d c = some b := by
            simpa [walkN, hg, henc] using hw
          have h0 : lookupVal e0.values tok.lexeme = none :=
            hnear 0 a e0 (Nat.succ_pos d) (by simp [walkN]) hg
          rcases fl with _ | fl
          · omega
          · have hnear2 : ∀ j c2 ej, j < d → walkN h j c = some c2 →
                getScope h c2 = some ej →
                lookupVal ej.values tok.lexeme = none := by
              intro j c2 ej hj hwj hgj
              exact hnear (j + 1) c2 ej (by omega)
                (by simpa [walkN, hg, henc] using hwj) hgj
            have := ih c b fl e tok v hw2 hs hl hnear2 (by omega)
            exact ⟨by simpa [getAt, hg, henc] using this.1,
                   by simpa [envGet, hg, h0, henc] using this.2⟩

/-- C7 witness: a two-scope chain, the root binding `a`. -/
theorem get_at_assign_at_exact_walk_w :
    getAt [⟨[("a", .num 5)], none⟩, ⟨[], some 0⟩] 1 1 "a" = some (.num 5) ∧
    assignAt [⟨[("a", .num 5)], none⟩, ⟨[], some 0⟩] 1 1 "a" (.num 6)
      = some [⟨[("a", .num 6)], none⟩, ⟨[], some 0⟩] := by
  have h := get_at_assign_at_exact_walk
      [⟨[("a", .num 5)], none⟩, ⟨[], some 0⟩] 1 1 0
      ⟨[("a", .num 5)], none⟩ "a" (.num 5) (.num 6) rfl rfl rfl
  exact ⟨h.1, h.2.trans (by rfl)⟩

/-- C9 witness: re-declaration overwrites; assigning an unbound name is
the undefined-variable error. -/
theorem define_overwrites_assign_requires_binding_w :
    getScope (envDefine [⟨[("a", .num 1)], none⟩] 0 "a" (.num 2)) 0
      = some ⟨[("a", .num 2)], none⟩ ∧
    envAssign [⟨[("a", .num 1)], none⟩] 1 0 (idTok "b") (.num 3)
      = .error (.runtimeError (idTok "b")
          ("Undefined variable \x27" ++ (idTok "b").display ++ "\x27.")) := by
  constructor
  · have h := (define_overwrites_assign_requires_binding.1
        [⟨[("a", .num 1)], none⟩] 0 ⟨[("a", .num 1)], none⟩ "a" (.num 2) rfl).1
    exact h.trans (by rfl)
  · refine define_overwrites_assign_requires_binding.2.1
      [⟨[("a", .num 1)], none⟩] 1 0 (idTok "b") (.num 3) rfl ?_
    intro e he
    simp [chainList, getScope] at he
    subst he
    rfl

/-- C10 witness: calling a function with an empty body yields `nil`. -/
theorem call_completion_yields_nil_w :
    callFunction [] 3 initState (.user 9 "f" [] [] 0) []
      = ({ initState with heap := initState.heap ++ [⟨[], some 0⟩] },
         .ok .nil) ∧
    execStmt [] 3 initState (.returnStmt brkTok none)
      = (initState, .error (.returnValue .nil)) := by
  constructor
  · have h := (call_completion_yields_nil [] 2 initState 9 "f" [] [] 0 []).1 rfl
    exact h.trans (by rfl)
  · exact (call_completion_yields_nil [] 2 initState 9 "f" [] [] 0 []).2.2 brkTok

/-- C5 amended-claim witness: a two-scope chain without shadowing, read at
distance 1 and by the outward walk. -/
theorem resolved_lookup_matches_outward_walk_w :
    getAt [⟨[("x", .num 7)], none⟩, ⟨[], some 0⟩] 1 1 "x" = some (.num 7) ∧
    envGet [⟨[("x", .num 7)], none⟩, ⟨[], some 0⟩] 2 1 (idTok "x")
      = .ok (.num 7) := by
  refine resolved_lookup_matches_outward_walk
      [⟨[("x", .num 7)], none⟩, ⟨[], some 0⟩] 1 1 0 2
      ⟨[("x", .num 7)], none⟩ (idTok "x") (.num 7) rfl rfl rfl ?_ (by omega)
  intro j c ej hj hw hg
  have hj0 : j = 0 := by omega
  subst hj0
  simp [walkN] at hw
  subst hw
  simp [getScope] at hg
  subst hg
  rfl

/-! ## Helper lemmas for the closure-counter claim -/

theorem getScope_append_sing (h : Heap) (e : EnvScope) :
    getScope (h ++ [e]) h.length = some e := by
  induction h with
  | nil => rfl
  | cons x h ih =>
      show getScope (x :: (h ++ [e])) (h.length + 1) = some e
      simpa [getScope] using ih

theorem getAt_zero (h : Heap) (a : Nat) (n : String) :
    getAt h a 0 n
      = match getScope h a with
        | some e => lookupVal e.values n
        | none => none := by
  rw [getAt.eq_def]; cases hg : getScope h a <;> rfl

theorem getAt_succ (h : Heap) (a d : Nat) (n : String) :
    getAt h a (d + 1) n
      = match getScope h a with
        | some e =>
            match e.enclosing with
            | some b => getAt h b d n
            | none => none
        | none => none := by
  rw [getAt.eq_def]; cases hg : getScope h a <;> rfl

theorem assignAt_zero (h : Heap) (a : Nat) (n : String) (v : Obj) :
    assignAt h a 0 n v
      = match getScope h a with
        | some e => some (setScope h a { e with values := insertVal e.values n v })
        | none => none := by
  rw [assignAt.eq_def]; cases hg : getScope h a <;> rfl

theorem assignAt_succ (h : Heap) (a d : Nat) (n : String) (v : Obj) :
    assignAt h a (d + 1) n v
      = match getScope h a with
        | some e =>
            match e.enclosing with
            | some b => assignAt h b d n v
            | none => none
        | none => none := by
  rw [assignAt.eq_def]; cases hg : getScope h a <;> rfl

/-- One `c1()` call from any reachable counter state: the shared counter
cell behind `c1` is incremented in place (the closure's environment at
address 1), `c2`'s cell is untouched, one dead call frame is appended,
and the call returns the new value. -/
theorem c1_call_step (fl : Nat) (ex : List EnvScope) (out : List String)
    (v1 v2 : Num) :
    exec counterLocals (fl + 15) (counterState ex out v1 v2) (.expr callC1)
      = (counterState (ex ++ [deadFrame 1]) out (v1.add (Num.ofInt 1)) v2,
         .ok (.obj (.num (v1.add (Num.ofInt 1))))) := by
  show exec counterLocals (fl+1+1+1+1+1+1+1+1+1+1+1+1+1+1+1)
      (counterState ex out v1 v2) (.expr callC1) = _
  simp [exec, counterState, counterLocals, callC1, localsGet, counterGlobals,
        counterEnv, countFunc, countBody, deadFrame, c1Tok, iTok, idTok,
        litToObj, binOpEval, isTruthy, bindParams, envGet, envDefine,
        getAt_zero, getAt_succ, assignAt_zero, assignAt_succ, getScope,
        setScope, lookupVal, insertVal, FuncVal.arity, getScope_append_sing]
  rfl

/-- One `c2()` call, symmetric to `c1_call_step`: only the second
counter's cell (address 2) changes. -/
theorem c2_call_step (fl : Nat) (ex : List EnvScope) (out : List String)
    (v1 v2 : Num) :
    exec counterLocals (fl + 15) (counterState ex out v1 v2) (.expr callC2)
      = (counterState (ex ++ [deadFrame 2]) out v1 (v2.add (Num.ofInt 1)),
         .ok (.obj (.num (v2.add (Num.ofInt 1))))) := by
  show exec counterLocals (fl+1+1+1+1+1+1+1+1+1+1+1+1+1+1+1)
      (counterState ex out v1 v2) (.expr callC2) = _
  simp [exec, counterState, counterLocals, callC2, localsGet, counterGlobals,
        counterEnv, countFunc, countBody, deadFrame, c2Tok, iTok, idTok,
        litToObj, binOpEval, isTruthy, bindParams, envGet, envDefine,
        getAt_zero, getAt_succ, assignAt_zero, assignAt_succ, getScope,
        setScope, lookupVal, insertVal, FuncVal.arity, getScope_append_sing]
  rfl

theorem iterAdd_shift (v : Num) (k : Nat) :
    iterAdd (v.add (Num.ofInt 1)) k = iterAdd v (k + 1) := by
  induction k with
  | zero => rfl
  | succ k ih => simp [iterAdd, ih]

theorem iterAdd_closed (v : Num) (k : Nat) :
    iterAdd v k = ⟨v.n + (k : Int) * v.d, v.d⟩ := by
  induction k with
  | zero => cases v; simp [iterAdd]
  | succ k ih =>
      cases v with
      | mk n d =>
          simp only [iterAdd, ih, Num.add, Num.ofInt, Num.mk.injEq]
          push_cast
          constructor <;> ring

theorem iterAdd_strict (v : Num) (j k : Nat) (hd : 0 < v.d) (hjk : j < k) :
    (iterAdd v j).vlt (iterAdd v k) = true := by
  simp only [iterAdd_closed, Num.vlt, decide_eq_true_eq]
  have hjk2 : (j : Int) < (k : Int) := by exact_mod_cast hjk
  nlinarith [mul_pos hd hd, mul_pos (sub_pos.mpr hjk2) (mul_pos hd hd)]

theorem counterValues_replicate :
    ∀ (k : Nat) (v1 v2 : Num),
      counterValues v1 v2 (List.replicate k true)
        = (List.range k).map (fun j => Obj.num (iterAdd v1 (j + 1))) := by
  intro k
  induction k with
  | zero => intro v1 v2; simp [counterValues]
  | succ k ih =>
      intro v1 v2
      rw [List.replicate_succ, List.range_succ_eq_map]
      simp only [counterValues, List.map_cons, List.map_map]
      rw [ih (v1.add (Num.ofInt 1)) v2]
      congr 1
      apply List.map_congr_left
      intro j _
      simp [Function.comp, iterAdd_shift]

/-- Any interleaving of calls to the two counters: each call returns and
stores its own counter's incremented value, the two cells evolve
independently (`c1`'s by its call count, `c2`'s by its), and each call
just appends a dead frame to the heap. -/
theorem callSeq_counter (bs : List Bool) :
    ∀ (ex : List EnvScope) (out : List String) (v1 v2 : Num),
      callSeq bs (counterState ex out v1 v2)
        = (counterValues v1 v2 bs,
           counterState (ex ++ bs.map (fun b => deadFrame (if b then 1 else 2)))
             out (iterAdd v1 (bs.count true)) (iterAdd v2 (bs.count false))) := by
  induction bs with
  | nil => intro ex out v1 v2; simp [callSeq, counterValues, iterAdd]
  | cons b rest ih =>
      intro ex out v1 v2
      cases b
      · have hc : callOnce callC2 (counterState ex out v1 v2)
            = (counterState (ex ++ [deadFrame 2]) out v1 (v2.add (Num.ofInt 1)),
               .ok (.obj (.num (v2.add (Num.ofInt 1))))) :=
          c2_call_step 5 ex out v1 v2
        simp [callSeq, hc, ih, counterValues, iterAdd_shift, List.count_cons]
      · have hc : callOnce callC1 (counterState ex out v1 v2)
            = (counterState (ex ++ [deadFrame 1]) out (v1.add (Num.ofInt 1)) v2,
               .ok (.obj (.num (v1.add (Num.ofInt 1))))) :=
          c1_call_step 5 ex out v1 v2
        simp [callSeq, hc, ih, counterValues, iterAdd_shift, List.count_cons]

/-- C4: running the counter program leaves two closures `c1`, `c2` whose
captured environments are distinct heap cells shared by reference; any
interleaved sequence of calls returns, for each closure, its own counter
incremented once per call (`callSeq_counter` restated), the values of
successive calls to one closure are `v+1, v+2, ...`, and that sequence is
strictly increasing (`vlt` holds between any earlier and later value). -/
theorem closure_counters_shared_reference :
    resolveProgram 99 counterSetup = counterLocals ∧
    interpret counterLocals 99 initState counterSetup
      = (counterState [] [] (Num.ofInt 0) (Num.ofInt 0), false) ∧
    (∀ (bs : List Bool) (ex : List EnvScope) (out : List String) (v1 v2 : Num),
        callSeq bs (counterState ex out v1 v2)
          = (counterValues v1 v2 bs,
             counterState (ex ++ bs.map (fun b => deadFrame (if b then 1 else 2)))
               out (iterAdd v1 (bs.count true)) (iterAdd v2 (bs.count false)))) ∧
    (∀ (k : Nat) (v1 v2 : Num),
        counterValues v1 v2 (List.replicate k true)
          = (List.range k).map (fun j => Obj.num (iterAdd v1 (j + 1)))) ∧
    (∀ (v : Num) (j k : Nat), 0 < v.d → j < k →
        (iterAdd v j).vlt (iterAdd v k) = true) := by
  refine ⟨rfl, rfl, ?_, ?_, ?_⟩
  · intro bs ex out v1 v2
    exact callSeq_counter bs ex out v1 v2
  · intro k v1 v2
    exact counterValues_replicate k v1 v2
  · intro v j k hd hjk
    exact iterAdd_strict v j k hd hjk

/-- C4 witness: the strict-increase conjunct at the counter's actual
start value `0`. -/
theorem closure_counters_shared_reference_w :
    (iterAdd ⟨0, 1⟩ 0).vlt (iterAdd ⟨0, 1⟩ 2) = true :=
  closure_counters_shared_reference.2.2.2.2 ⟨0, 1⟩ 0 2 (by decide) (by decide)

end Lox
